/-
Verification of the VibeNote live-audio pipeline (src/services/audioUtils.ts and
the useGeminiLive hook in src/App.tsx) against its natural-language specification.

The TypeScript source is shallowly embedded: pure numeric code over Float64 is
modelled over ℝ (where transcendental functions appear) or ℚ (where only field
and floor operations appear); JavaScript strings are modelled as Lean strings or
as lists of UTF-16 code units; the mutable refs of the session controller are
modelled as an explicit state record with one transition function per callback.
-/
import Mathlib

set_option maxHeartbeats 1000000

namespace VibeNote

/-! ## PCM codec: `createBlob` (src/services/audioUtils.ts lines 14–36)

Each Float32 sample is soft-clipped with `Math.tanh`, scaled asymmetrically
(`sample < 0 ? sample * 0x8000 : sample * 0x7FFF`), and stored into an
`Int16Array`.  Storing a JS number into an `Int16Array` truncates the float
toward zero and then wraps it into the signed 16-bit range. -/

/-- Truncation toward zero of a real number, as performed by JavaScript's
ToIntegerOrInfinity step when a number is stored into an `Int16Array`. -/
noncomputable def jsTruncToInt (r : ℝ) : ℤ :=
  if r < 0 then ⌈r⌉ else ⌊r⌋

/-- Wrapping of an integer into the signed 16-bit range, the final step of the
JS `ToInt16` conversion used by `Int16Array` element stores. -/
def toInt16Wrap (n : ℤ) : ℤ :=
  (n + 32768) % 65536 - 32768

/-- The asymmetric 16-bit scaling of `createBlob` (line 26 of audioUtils.ts):
`sample < 0 ? sample * 0x8000 : sample * 0x7FFF`. -/
noncomputable def jsScale16 (s : ℝ) : ℝ :=
  if s < 0 then s * 32768 else s * 32767

/-- The per-sample conversion of `createBlob` (lines 23–26 of audioUtils.ts):
soft clip with `tanh`, scale asymmetrically, store into an `Int16Array`.
`Real.tanh` stands in for Float64 `Math.tanh`; at the moderate arguments the
theorems below evaluate (±1, where `Math.tanh` agrees with the real value to
within an ulp) the model is exact, but it is not used to reason about large
arguments, where Float64 `Math.tanh` rounds to exactly ±1.0 and the program
therefore can reach full scale ±32767/−32768. -/
noncomputable def createBlobSample (x : ℝ) : ℤ :=
  toInt16Wrap (jsTruncToInt (jsScale16 (Real.tanh x)))

/-- The full sample loop of `createBlob`: the `Int16Array` contents. -/
noncomputable def createBlobInts (data : List ℝ) : List ℤ :=
  data.map createBlobSample

/-! ## Base64 transport codec: `encode` / `decode` (audioUtils.ts lines 71–93)

`encode` builds the Latin-1 string whose code units are the input bytes
(`String.fromCharCode`) and applies the platform built-in `btoa`; `decode`
applies `atob` and reads the code units back (`charCodeAt`).  On byte values
0–255 the `fromCharCode`/`charCodeAt` steps are the identity on code-unit
lists, so the pair reduces to Base64 itself. -/

/-- Modelled from the spec: the browser built-in `btoa`/`atob` pair is not part
of this repository; it is standard Base64 (RFC 4648) over the code units of a
Latin-1 string.  This is the sextet-to-ASCII alphabet table. -/
def b64EncodeChar (n : ℕ) : ℕ :=
  if n < 26 then 65 + n
  else if n < 52 then 97 + (n - 26)
  else if n < 62 then 48 + (n - 52)
  else if n = 62 then 43
  else 47

/-- Modelled from the spec: inverse alphabet table of `atob` (61 is `'='`,
which is padding, never data). -/
def b64DecodeChar (c : ℕ) : ℕ :=
  if 65 ≤ c ∧ c ≤ 90 then c - 65
  else if 97 ≤ c ∧ c ≤ 122 then 26 + (c - 97)
  else if 48 ≤ c ∧ c ≤ 57 then 52 + (c - 48)
  else if c = 43 then 62
  else if c = 47 then 63
  else 0

/-- Modelled from the spec: `btoa` on a list of byte values — groups of three
bytes become four alphabet characters; a final group of one or two bytes is
padded with `'='` (code 61). -/
def b64Encode : List ℕ → List ℕ
  | [] => []
  | [b0] =>
      [b64EncodeChar (b0 / 4), b64EncodeChar (b0 % 4 * 16), 61, 61]
  | [b0, b1] =>
      [b64EncodeChar (b0 / 4), b64EncodeChar (b0 % 4 * 16 + b1 / 16),
       b64EncodeChar (b1 % 16 * 4), 61]
  | b0 :: b1 :: b2 :: rest =>
      b64EncodeChar (b0 / 4) :: b64EncodeChar (b0 % 4 * 16 + b1 / 16) ::
      b64EncodeChar (b1 % 16 * 4 + b2 / 64) :: b64EncodeChar (b2 % 64) ::
      b64Encode rest

/-- Modelled from the spec: `atob` on a list of character codes — each group of
four characters yields three bytes, or fewer when padding `'='` appears. -/
def b64Decode : List ℕ → List ℕ
  | c0 :: c1 :: c2 :: c3 :: rest =>
      if c2 = 61 then
        [b64DecodeChar c0 * 4 + b64DecodeChar c1 / 16]
      else if c3 = 61 then
        [b64DecodeChar c0 * 4 + b64DecodeChar c1 / 16,
         b64DecodeChar c1 % 16 * 16 + b64DecodeChar c2 / 4]
      else
        (b64DecodeChar c0 * 4 + b64DecodeChar c1 / 16) ::
        (b64DecodeChar c1 % 16 * 16 + b64DecodeChar c2 / 4) ::
        (b64DecodeChar c2 % 4 * 64 + b64DecodeChar c3) :: b64Decode rest
  | _ => []

/-- `encode` from audioUtils.ts (lines 71–79): `btoa` of the string whose code
units are the bytes; on the code-unit model the string builder is the
identity. -/
def encode (bytes : List ℕ) : List ℕ := b64Encode bytes

/-- `decode` from audioUtils.ts (lines 85–93): code units of `atob` of the
transport string. -/
def decode (b64chars : List ℕ) : List ℕ := b64Decode b64chars

/-! ## Resampler: `downsampleTo16k` (audioUtils.ts lines 47–65) -/

/-- `PCM_SAMPLE_RATE` from audioUtils.ts line 3. -/
def PCM_SAMPLE_RATE : ℕ := 16000

/-- `downsampleTo16k` from audioUtils.ts: linear-interpolation resampling to
16 kHz.  Polymorphic over an ordered field with floor so that it can be read
both at ℚ (for concrete evaluation) and at ℝ (inside the audio pipeline);
`Math.round` is `round`, i.e. `⌊x + 1/2⌋`, and array reads are `getD` (the
index-bound claims are proved separately). -/
def downsampleTo16k {α : Type} [LinearOrderedField α] [FloorRing α]
    (buffer : List α) (inputRate : α) : List α :=
  if inputRate = (PCM_SAMPLE_RATE : α) then buffer
  else
    let ratio : α := inputRate / (PCM_SAMPLE_RATE : α)
    let newLength : ℕ := (round ((buffer.length : α) / ratio)).toNat
    (List.range newLength).map (fun (i : ℕ) =>
      let inputIndex : α := (i : α) * ratio
      let indexFloor : ℤ := ⌊inputIndex⌋
      let indexCeil : ℤ := min ⌈inputIndex⌉ ((buffer.length : ℤ) - 1)
      let weight : α := inputIndex - (indexFloor : α)
      buffer.getD indexFloor.toNat 0 * (1 - weight) +
        buffer.getD indexCeil.toNat 0 * weight)

/-! ## Noise gate (src/App.tsx lines 1042–1053)

Inside `processor.onaudioprocess`: block RMS is `sqrt(sumSquares / length)`;
if it is strictly below the configured threshold the block is filled with
zeros, otherwise it is left untouched. -/

/-- Block RMS as computed by the `onaudioprocess` loop (lines 1043–1047). -/
noncomputable def blockRMS (block : List ℝ) : ℝ :=
  Real.sqrt ((block.map (fun s => s * s)).sum / (block.length : ℝ))

/-- The hard noise gate (lines 1051–1053): `if (rms < threshold)
inputData.fill(0)`, else the block passes through unchanged. -/
noncomputable def noiseGate (block : List ℝ) (threshold : ℝ) : List ℝ :=
  if blockRMS block < threshold then List.replicate block.length 0 else block

/-! ## Session controller state machine (src/App.tsx lines 593–1086)

The mutable refs and React state cells of `useGeminiLive` are collected into
one record; each callback of the hook becomes a transition function, translated
statement by statement from the source. -/

/-- `StreamStatus` from src/types.ts. -/
inductive StreamStatus
  | disconnected
  | connecting
  | connected
  | error
deriving DecidableEq

/-- The controller state: `status`/`errorMessage`/`isReconnecting` React state,
the `isLiveRef` / `shouldReconnectRef` flags, whether a session handle is held
(`sessionRef`), whether the audio pipeline resources are up
(`processorRef`/`audioContextRef`/streams), and whether a scheduled reconnect
`setTimeout` is pending. -/
structure SessionState where
  status : StreamStatus
  isLive : Bool
  shouldReconnect : Bool
  isReconnecting : Bool
  errorMessage : Option String
  sessionOpen : Bool
  pipelineUp : Bool
  reconnectTimer : Bool
deriving DecidableEq

/-- The state before any interaction (lines 594–627): DISCONNECTED, both flags
false, no error, no resources, no timer. -/
def initialSessionState : SessionState :=
  ⟨StreamStatus.disconnected, false, false, false, none, false, false, false⟩

/-- `stopAudioPipeline` (lines 705–751): clears `isLiveRef` and releases every
audio resource; it does not touch `status`, `shouldReconnectRef` or any pending
reconnect timer. -/
def stopAudioPipeline (s : SessionState) : SessionState :=
  { s with isLive := false, pipelineUp := false }

/-- JS truthiness test `!apiKey` of line 792: `undefined` and the empty string
are both falsy. -/
def jsFalsyKey : Option String → Bool
  | none => true
  | some k => k = ""

/-- The synchronous first part of `connect` (lines 791–802): guard on the
credential — on a falsy key only `errorMessage` is set and the function
returns; otherwise the flags are reset (`isLiveRef := true`,
`shouldReconnectRef := false`), the error message is cleared and the status
becomes CONNECTING. -/
def connectStart (apiKey : Option String) (s : SessionState) : SessionState :=
  if jsFalsyKey apiKey then { s with errorMessage := some "API Key is missing." }
  else { s with isLive := true, shouldReconnect := false,
                errorMessage := none, status := StreamStatus.connecting }

/-- `connect` when every asynchronous setup step succeeds (lines 804–1074):
the synchronous part of `connectStart` followed by acquiring the audio
context, microphone, remote session handle and processing pipeline. -/
def connectSuccess (apiKey : Option String) (s : SessionState) : SessionState :=
  if jsFalsyKey apiKey then { s with errorMessage := some "API Key is missing." }
  else { s with isLive := true, shouldReconnect := false,
                errorMessage := none, status := StreamStatus.connecting,
                sessionOpen := true, pipelineUp := true }

/-- The `onopen` callback (lines 858–867): a no-op when the user already
disconnected (`isLiveRef` false); otherwise status becomes CONNECTED and the
reconnecting indicator is cleared. -/
def onOpen (s : SessionState) : SessionState :=
  if s.isLive then { s with status := StreamStatus.connected, isReconnecting := false }
  else s

/-- The `onerror` callback (lines 941–962): while live it sets
`shouldReconnectRef`, shows the reconnect indicator, moves to CONNECTING,
tears the pipeline down and schedules `setTimeout(() => connect(), 1500)`;
while not live it only tears the pipeline down. -/
def onError (s : SessionState) : SessionState :=
  if s.isLive then
    { stopAudioPipeline s with
        shouldReconnect := true, isReconnecting := true,
        status := StreamStatus.connecting, reconnectTimer := true }
  else stopAudioPipeline s

/-- The `onclose` callback (lines 932–940): ignored entirely while a reconnect
is pending; otherwise status becomes DISCONNECTED and the pipeline is torn
down. -/
def onClose (s : SessionState) : SessionState :=
  if s.shouldReconnect then s
  else stopAudioPipeline { s with status := StreamStatus.disconnected }

/-- The user-initiated `disconnect` (lines 757–774): clears both flags and the
reconnect indicator, best-effort closes the session handle, tears the pipeline
down, and sets DISCONNECTED.  Note that no `clearTimeout` is issued for a
scheduled reconnect attempt. -/
def disconnect (s : SessionState) : SessionState :=
  { stopAudioPipeline
      { s with shouldReconnect := false, isLive := false,
               isReconnecting := false, sessionOpen := false } with
    status := StreamStatus.disconnected }

/-- The scheduled reconnect callback (lines 955–958): when the 1.5 s timer
fires it re-invokes `connect()` unconditionally — the callback body contains
no check of `isLiveRef` or `shouldReconnectRef`.  Translated as: consume the
timer and run the synchronous part of `connect`. -/
def reconnectTimerFire (apiKey : Option String) (s : SessionState) : SessionState :=
  if s.reconnectTimer then connectStart apiKey { s with reconnectTimer := false }
  else s

/-! ## Transcript aggregation (src/App.tsx lines 642–655 and 868–907) -/

/-- The two transcript senders of `TranscriptSegment` (src/types.ts). -/
inductive Sender
  | user
  | model
deriving DecidableEq

/-- `TranscriptSegment` from src/types.ts, with the timestamp as a natural
number (`Date.now()`). -/
structure TranscriptSegment where
  id : String
  sender : Sender
  text : String
  timestamp : ℕ
  isPartial : Bool
deriving DecidableEq

/-- The segment-merge step of `onmessage` (lines 874–884 for `user`,
892–900 for `model`): if the last segment exists, has the same sender and is
partial, its text is extended in place; otherwise a new partial segment with
id `Date.now().toString()` is appended. -/
def addFragment (now : ℕ) (sender : Sender) (text : String)
    (prev : List TranscriptSegment) : List TranscriptSegment :=
  match prev.getLast? with
  | some last =>
      if last.sender = sender ∧ last.isPartial = true then
        prev.dropLast ++ [{ last with text := last.text ++ text }]
      else prev ++ [⟨toString now, sender, text, now, true⟩]
  | none => prev ++ [⟨toString now, sender, text, now, true⟩]

/-- The debounced transcript buffer: the visible React state
`currentTranscriptBuffer`, the pending `bufferAccumulatorRef`, and whether a
debounce `setTimeout` is pending. -/
structure BufferState where
  visible : String
  pending : String
  timerPending : Bool
deriving DecidableEq

/-- `queueTranscriptUpdate` (lines 642–655): appends `" " + text` to the
accumulator and makes sure a debounce timer is pending. -/
def queueTranscriptUpdate (text : String) (s : BufferState) : BufferState :=
  { s with pending := s.pending ++ " " ++ text, timerPending := true }

/-- The debounce timer callback (lines 646–653): if the accumulator is
non-empty its content is appended to the visible buffer and cleared; the
timer marker is cleared in every case. -/
def flushTranscriptTimer (s : BufferState) : BufferState :=
  if s.pending ≠ "" then
    ⟨s.visible ++ s.pending, "", false⟩
  else { s with timerPending := false }

/-- Feeding a list of fragments through `queueTranscriptUpdate` in arrival
order. -/
def queueAll (frags : List String) (s : BufferState) : BufferState :=
  frags.foldl (fun st t => queueTranscriptUpdate t st) s

/-- The text accumulated for a fragment list: one `" " + fragment` per
fragment. -/
def joinWithSpace (frags : List String) : String :=
  frags.foldl (fun acc t => acc ++ (" " ++ t)) ""

/-- Bare concatenation of the fragment texts, for comparison. -/
def joinBare (frags : List String) : String :=
  frags.foldl (fun acc t => acc ++ t) ""

/-! ## Per-block audio callback (src/App.tsx lines 1037–1070) -/

/-- State visible to `processor.onaudioprocess`: the `isLiveRef` flag, whether
`processorRef` and `audioContextRef` are still set, the `shouldReconnectRef`
flag, and the blocks sent so far. -/
structure AudioCbState where
  isLive : Bool
  processorUp : Bool
  contextUp : Bool
  shouldReconnect : Bool
  sent : List (List ℤ)

/-- Result of one callback invocation: the state afterwards, the payload that
was actually transmitted (if any), and whether an exception escaped the
callback. -/
structure BlockOutcome where
  st : AudioCbState
  sentBlock : Option (List ℤ)
  threw : Bool

/-- The DSP content of the callback (lines 1042–1057): noise gate, then
`downsampleTo16k`, then `createBlob`. -/
noncomputable def pipelineBlock (block : List ℝ) (inputRate threshold : ℝ) : List ℤ :=
  createBlobInts (downsampleTo16k (noiseGate block threshold) inputRate)

/-- `processor.onaudioprocess` (lines 1037–1070).  The guard of line 1038 drops
the block when `isLiveRef` is false or the processor or context has been torn
down.  The send happens inside `sessionPromise.then`, which re-reads
`isLiveRef` (line 1061, parameter `liveAtSend`); a send failure is caught and
dropped (lines 1064–1066), so no branch throws and none touches
`shouldReconnectRef`. -/
noncomputable def onAudioProcess (s : AudioCbState) (block : List ℝ)
    (inputRate threshold : ℝ) (liveAtSend sendOk : Bool) : BlockOutcome :=
  if s.isLive = false ∨ s.processorUp = false ∨ s.contextUp = false then
    ⟨s, none, false⟩
  else if liveAtSend = false then ⟨s, none, false⟩
  else if sendOk then
    ⟨{ s with sent := s.sent ++ [pipelineBlock block inputRate threshold] },
     some (pipelineBlock block inputRate threshold), false⟩
  else ⟨s, none, false⟩

/-! ## Theorems -/

/-- C1.  The claim states that a user `disconnect()` issued between a
remote-session error and the scheduled 1.5 s reconnect attempt makes the
eventual attempt a no-op, the delayed callback checking the
`active`/`reconnectRequested` flags before doing any work.  The code disagrees:
the timer callback (App.tsx lines 955–958) re-invokes `connect()` with no flag
check, so after the scenario connect→error→disconnect the firing timer flips
`isLiveRef` back to true, moves the status from DISCONNECTED to CONNECTING and
begins a fresh session setup.  This theorem evaluates the embedded code on that
failing scenario. -/
theorem c1_reconnect_attempt_not_noop :
    (disconnect (onError (onOpen (connectSuccess (some "k") initialSessionState)))).reconnectTimer
        = true
    ∧ (disconnect (onError (onOpen (connectSuccess (some "k") initialSessionState)))).isLive
        = false
    ∧ (disconnect (onError (onOpen (connectSuccess (some "k") initialSessionState)))).shouldReconnect
        = false
    ∧ (disconnect (onError (onOpen (connectSuccess (some "k") initialSessionState)))).status
        = StreamStatus.disconnected
    ∧ reconnectTimerFire (some "k")
          (disconnect (onError (onOpen (connectSuccess (some "k") initialSessionState))))
        ≠ disconnect (onError (onOpen (connectSuccess (some "k") initialSessionState)))
    ∧ (reconnectTimerFire (some "k")
          (disconnect (onError (onOpen (connectSuccess (some "k") initialSessionState))))).isLive
        = true
    ∧ (reconnectTimerFire (some "k")
          (disconnect (onError (onOpen (connectSuccess (some "k") initialSessionState))))).status
        = StreamStatus.connecting := by
  decide

/-- C3, counterexample.  The claim asserts that `connect` with a missing
credential transitions the session status to the Error state; on the code the
guard (App.tsx lines 792–795) sets the error message and returns without
touching `status`: from the initial DISCONNECTED state the status stays
DISCONNECTED. -/
theorem c3_counterexample :
    (connectStart none initialSessionState).errorMessage = some "API Key is missing."
    ∧ (connectStart none initialSessionState).status = StreamStatus.disconnected
    ∧ (connectStart none initialSessionState).status ≠ StreamStatus.error := by
  decide

/-- C3, amended.  For every call to `connect` with a missing or empty
credential: the user-facing message "API Key is missing." is surfaced and the
call returns immediately; the session status is left unchanged (in particular
it does not transition to Error), the `active` flag is not modified (so it
stays false), and no reconnect is scheduled. -/
theorem c3_missing_credential (s : SessionState) (k : Option String)
    (hk : jsFalsyKey k = true) :
    (connectStart k s).errorMessage = some "API Key is missing."
    ∧ (connectStart k s).status = s.status
    ∧ (connectStart k s).isLive = s.isLive
    ∧ (connectStart k s).shouldReconnect = s.shouldReconnect
    ∧ (connectStart k s).isReconnecting = s.isReconnecting
    ∧ (connectStart k s).reconnectTimer = s.reconnectTimer
    ∧ (connectStart k s).sessionOpen = s.sessionOpen
    ∧ (connectStart k s).pipelineUp = s.pipelineUp := by
  simp [connectStart, hk]

/-- C3, witness: the amended theorem applied to the initial state and an absent
credential. -/
theorem c3_missing_credential_witness :
    (connectStart none initialSessionState).errorMessage = some "API Key is missing."
    ∧ (connectStart none initialSessionState).status = initialSessionState.status
    ∧ (connectStart none initialSessionState).isLive = initialSessionState.isLive
    ∧ (connectStart none initialSessionState).shouldReconnect
        = initialSessionState.shouldReconnect
    ∧ (connectStart none initialSessionState).isReconnecting
        = initialSessionState.isReconnecting
    ∧ (connectStart none initialSessionState).reconnectTimer
        = initialSessionState.reconnectTimer
    ∧ (connectStart none initialSessionState).sessionOpen = initialSessionState.sessionOpen
    ∧ (connectStart none initialSessionState).pipelineUp = initialSessionState.pipelineUp :=
  c3_missing_credential initialSessionState none rfl

/-- Decoding inverts the alphabet table on every sextet. -/
theorem b64_roundChar : ∀ n < 64, b64DecodeChar (b64EncodeChar n) = n := by decide

/-- No data sextet encodes to the padding character 61 (`'='`). -/
theorem b64_encodeChar_ne_61 : ∀ n < 64, b64EncodeChar n ≠ 61 := by decide

/-- C10.  For every byte array (elements in 0..255), `decode (encode b) = b`:
the base64 transport encoding and decoding of audioUtils.ts form a lossless
round trip. -/
theorem c10_encode_decode_roundtrip :
    ∀ bytes : List ℕ, (∀ b ∈ bytes, b < 256) → decode (encode bytes) = bytes := by
  intro bytes
  unfold decode encode
  induction bytes using b64Encode.induct with
  | case1 =>
      intro _
      rfl
  | case2 b0 =>
      intro h
      have hb0 : b0 < 256 := h b0 (by simp)
      simp only [b64Encode, b64Decode]
      rw [if_pos trivial]
      rw [b64_roundChar _ (by omega), b64_roundChar _ (by omega)]
      simp only [List.cons.injEq, and_true]
      omega
  | case3 b0 b1 =>
      intro h
      have hb0 : b0 < 256 := h b0 (by simp)
      have hb1 : b1 < 256 := h b1 (by simp)
      simp only [b64Encode, b64Decode]
      rw [if_neg (b64_encodeChar_ne_61 _ (by omega)), if_pos trivial]
      rw [b64_roundChar _ (by omega), b64_roundChar _ (by omega),
        b64_roundChar _ (by omega)]
      simp only [List.cons.injEq, and_true]
      omega
  | case4 b0 b1 b2 rest ih =>
      intro h
      have hb0 : b0 < 256 := h b0 (by simp)
      have hb1 : b1 < 256 := h b1 (by simp)
      have hb2 : b2 < 256 := h b2 (by simp)
      have hrest : ∀ b ∈ rest, b < 256 := fun b hb => h b (by simp [hb])
      simp only [b64Encode, b64Decode]
      rw [if_neg (b64_encodeChar_ne_61 _ (by omega)),
        if_neg (b64_encodeChar_ne_61 _ (by omega))]
      rw [b64_roundChar _ (by omega), b64_roundChar _ (by omega),
        b64_roundChar _ (by omega), b64_roundChar _ (by omega)]
      rw [ih hrest]
      simp only [List.cons.injEq, and_true]
      omega

/-- C10, witness: the round trip evaluated on a concrete byte array exercising
all three padding shapes is covered by lengths 4 ≡ 1 (mod 3). -/
theorem c10_encode_decode_roundtrip_witness :
    decode (encode [104, 255, 0, 77]) = [104, 255, 0, 77] :=
  c10_encode_decode_roundtrip [104, 255, 0, 77] (by decide)

/-- The fractional source position of every produced output index stays
strictly below the input length (and the input is nonempty whenever an output
index exists). -/
theorem resample_pos_lt (len : ℕ) (ratio : ℚ) (hr : 0 < ratio) (i : ℕ)
    (hi : i < (round ((len : ℚ) / ratio)).toNat) :
    (i : ℚ) * ratio < len ∧ 0 < len := by
  have h0 : 0 < (round ((len : ℚ) / ratio)).toNat := Nat.lt_of_le_of_lt (Nat.zero_le i) hi
  have hround : 0 < round ((len : ℚ) / ratio) := by omega
  have hlen : 0 < len := by
    rcases Nat.eq_zero_or_pos len with h | h
    · subst h
      simp at hround
    · exact h
  refine ⟨?_, hlen⟩
  have hleZ : (i : ℤ) + 1 ≤ round ((len : ℚ) / ratio) := by omega
  have hle : (i : ℚ) + 1 ≤ ((round ((len : ℚ) / ratio) : ℤ) : ℚ) := by
    exact_mod_cast hleZ
  have hup : ((round ((len : ℚ) / ratio) : ℤ) : ℚ) ≤ (len : ℚ) / ratio + 1 / 2 := by
    rw [round_eq]
    exact Int.floor_le _
  have hi' : (i : ℚ) ≤ (len : ℚ) / ratio - 1 / 2 := by
    linarith
  have hmul : (i : ℚ) * ratio ≤ ((len : ℚ) / ratio - 1 / 2) * ratio :=
    mul_le_mul_of_nonneg_right hi' hr.le
  have hdm : ((len : ℚ) / ratio) * ratio = (len : ℚ) := div_mul_cancel₀ _ hr.ne'
  have : ((len : ℚ) / ratio - 1 / 2) * ratio = (len : ℚ) - ratio / 2 := by
    field_simp
    ring
  linarith

/-- Every source index the resampler reads — the floor index and the clamped
ceil index — lies in `[0, len − 1]`. -/
theorem resample_index_bounds (len : ℕ) (ratio : ℚ) (hr : 0 < ratio) (i : ℕ)
    (hi : i < (round ((len : ℚ) / ratio)).toNat) :
    0 ≤ ⌊(i : ℚ) * ratio⌋ ∧ ⌊(i : ℚ) * ratio⌋ ≤ (len : ℤ) - 1
    ∧ 0 ≤ min ⌈(i : ℚ) * ratio⌉ ((len : ℤ) - 1)
    ∧ min ⌈(i : ℚ) * ratio⌉ ((len : ℤ) - 1) ≤ (len : ℤ) - 1 := by
  obtain ⟨hlt, hlen⟩ := resample_pos_lt len ratio hr i hi
  have hnn : (0 : ℚ) ≤ (i : ℚ) * ratio := mul_nonneg (Nat.cast_nonneg i) hr.le
  have hfl : ⌊(i : ℚ) * ratio⌋ < (len : ℤ) := Int.floor_lt.mpr (by exact_mod_cast hlt)
  refine ⟨Int.floor_nonneg.mpr hnn, by omega, ?_, min_le_right _ _⟩
  exact le_min (Int.ceil_nonneg hnn) (by omega)

/-- C5.  For every input buffer and every positive `inputRate` different from
16000, `downsampleTo16k` produces an output of length
`round(inputLength / (inputRate / 16000))`, reads only source indices in
`[0, inputLength − 1]` (both the floor index and the clamped ceil index), and
maps empty input to empty output. -/
theorem c5_resampler_safety (buffer : List ℚ) (rate : ℚ) (hpos : 0 < rate)
    (hne : rate ≠ 16000) :
    (downsampleTo16k buffer rate).length
        = (round ((buffer.length : ℚ) / (rate / 16000))).toNat
    ∧ (∀ i, i < (round ((buffer.length : ℚ) / (rate / 16000))).toNat →
        0 ≤ ⌊(i : ℚ) * (rate / 16000)⌋
        ∧ ⌊(i : ℚ) * (rate / 16000)⌋ ≤ (buffer.length : ℤ) - 1
        ∧ 0 ≤ min ⌈(i : ℚ) * (rate / 16000)⌉ ((buffer.length : ℤ) - 1)
        ∧ min ⌈(i : ℚ) * (rate / 16000)⌉ ((buffer.length : ℤ) - 1)
            ≤ (buffer.length : ℤ) - 1)
    ∧ (buffer = [] → downsampleTo16k buffer rate = []) := by
  have hc : ((PCM_SAMPLE_RATE : ℕ) : ℚ) = 16000 := by norm_num [PCM_SAMPLE_RATE]
  have hrpos : 0 < rate / 16000 := by positivity
  refine ⟨?_, fun i hi => resample_index_bounds buffer.length (rate / 16000) hrpos i hi, ?_⟩
  · simp only [downsampleTo16k, hc]
    rw [if_neg hne]
    simp
  · intro hb
    subst hb
    simp only [downsampleTo16k, hc]
    rw [if_neg hne]
    simp

/-- C6.  When `inputRate = 16000` the resampler returns the input values
exactly, and for every constant-valued input at any positive rate every output
sample equals that constant: interpolation of identical neighbours is the
identical value. -/
theorem c6_resampler_identity :
    (∀ buffer : List ℚ, downsampleTo16k buffer 16000 = buffer)
    ∧ (∀ (n : ℕ) (c : ℚ) (rate : ℚ), 0 < rate →
        ∀ i, i < (downsampleTo16k (List.replicate n c) rate).length →
          (downsampleTo16k (List.replicate n c) rate).getD i 0 = c) := by
  have hc : ((PCM_SAMPLE_RATE : ℕ) : ℚ) = 16000 := by norm_num [PCM_SAMPLE_RATE]
  constructor
  · intro buffer
    simp only [downsampleTo16k, hc, if_true]
  · intro n c rate hr i hi
    by_cases h16 : rate = 16000
    · subst h16
      simp only [downsampleTo16k, hc, if_true] at hi ⊢
      rw [List.getD_eq_getElem?_getD, List.getElem?_replicate, if_pos (by simpa using hi)]
      rfl
    · have hrpos : 0 < rate / 16000 := by positivity
      simp only [downsampleTo16k, hc, if_neg h16, List.length_map, List.length_range,
        List.length_replicate] at hi ⊢
      rw [List.getD_eq_getElem?_getD, List.getElem?_map, List.getElem?_range hi]
      obtain ⟨h1, h2, h3, h4⟩ := resample_index_bounds n (rate / 16000) hrpos i hi
      obtain ⟨-, hn⟩ := resample_pos_lt n (rate / 16000) hrpos i hi
      have hfl : (⌊(i : ℚ) * (rate / 16000)⌋).toNat < n := by omega
      have hcl : (min ⌈(i : ℚ) * (rate / 16000)⌉ ((n : ℤ) - 1)).toNat < n := by omega
      simp only [Option.map_some', Option.getD_some, List.length_replicate]
      rw [List.getD_eq_getElem?_getD, List.getElem?_replicate, if_pos hfl,
        List.getD_eq_getElem?_getD, List.getElem?_replicate, if_pos hcl]
      simp only [Option.getD_some]
      ring

/-- C5, witness: the safety theorem applied to the two-sample buffer `[1, 2]`
at 32 kHz and to the empty buffer. -/
theorem c5_resampler_safety_witness :
    (downsampleTo16k ([1, 2] : List ℚ) 32000).length
        = (round (((([1, 2] : List ℚ).length : ℚ)) / (32000 / 16000))).toNat
    ∧ downsampleTo16k ([] : List ℚ) 32000 = [] :=
  ⟨(c5_resampler_safety [1, 2] 32000 (by norm_num) (by norm_num)).1,
   (c5_resampler_safety [] 32000 (by norm_num) (by norm_num)).2.2 rfl⟩

/-- C6, witness: identity at 16 kHz on `[3]`, and the constant buffer
`[5, 5]` downsampled from 32 kHz still reads 5. -/
theorem c6_resampler_identity_witness :
    downsampleTo16k ([3] : List ℚ) 16000 = [3]
    ∧ (downsampleTo16k (List.replicate 2 (5 : ℚ)) 32000).getD 0 0 = 5 :=
  ⟨c6_resampler_identity.1 [3],
   c6_resampler_identity.2 2 5 32000 (by norm_num) 0
     (by norm_num [downsampleTo16k, PCM_SAMPLE_RATE, round_eq, List.range_succ])⟩

/-- C4.  For every processed audio block: if the block RMS is strictly below
the configured threshold, every sample becomes exactly 0 (the block is the
all-zero block of the same length); if the RMS is at or above the threshold,
the block passes through completely unchanged. -/
theorem c4_noise_gate (block : List ℝ) (threshold : ℝ) :
    (blockRMS block < threshold →
        noiseGate block threshold = List.replicate block.length 0
        ∧ ∀ x ∈ noiseGate block threshold, x = 0)
    ∧ (threshold ≤ blockRMS block → noiseGate block threshold = block) := by
  constructor
  · intro h
    have he : noiseGate block threshold = List.replicate block.length 0 := by
      simp [noiseGate, h]
    exact ⟨he, fun x hx => by
      rw [he] at hx
      exact List.eq_of_mem_replicate hx⟩
  · intro h
    simp [noiseGate, not_lt.mpr h]

/-- C4, witness: a silent two-sample block (RMS 0) is gated to zeros under
threshold 1, and the block `[1]` (RMS 1) passes threshold 0 unchanged. -/
theorem c4_noise_gate_witness :
    noiseGate [0, 0] 1 = [0, 0] ∧ noiseGate [1] 0 = [1] := by
  have h1 : blockRMS [0, 0] < 1 := by
    have : blockRMS [0, 0] = 0 := by
      simp [blockRMS]
    rw [this]
    norm_num
  have h2 : (0 : ℝ) ≤ blockRMS [1] := Real.sqrt_nonneg _
  exact ⟨((c4_noise_gate [0, 0] 1).1 h1).1, (c4_noise_gate [1] 0).2 h2⟩

/-- Real `tanh` is strictly below 1.  Used only at the argument 1, where the
real value 0.76159… is far from 1 and Float64 `Math.tanh` agrees with it to
within an ulp (this is not a statement about large arguments, where Float64
`Math.tanh` rounds to exactly 1). -/
theorem tanh_lt_one_real (x : ℝ) : Real.tanh x < 1 := by
  rw [Real.tanh_eq_sinh_div_cosh]
  exact (div_lt_one (Real.cosh_pos x)).mpr (Real.sinh_lt_cosh x)

/-- A concrete lower bound for the soft clip at the boundary input 1. -/
theorem tanh_one_gt_three_quarters : 3 / 4 < Real.tanh 1 := by
  rw [Real.tanh_eq_sinh_div_cosh, Real.sinh_eq, Real.cosh_eq, Real.exp_neg]
  have ht : (2.7 : ℝ) < Real.exp 1 := by
    have h := Real.exp_one_gt_d9
    norm_num at h ⊢
    linarith
  have ht0 : (0 : ℝ) < Real.exp 1 := Real.exp_pos 1
  have hu0 : (0 : ℝ) < (Real.exp 1)⁻¹ := inv_pos.mpr ht0
  have htt : Real.exp 1 * (Real.exp 1)⁻¹ = 1 := mul_inv_cancel₀ ht0.ne'
  have hB : (0 : ℝ) < (Real.exp 1 + (Real.exp 1)⁻¹) / 2 := by positivity
  rw [lt_div_iff₀ hB]
  nlinarith [mul_pos (sub_pos.mpr ht) hu0]

/-- `toInt16Wrap` is the identity on the signed 16-bit range. -/
theorem toInt16Wrap_eq_self (n : ℤ) (h1 : -32768 ≤ n) (h2 : n ≤ 32767) :
    toInt16Wrap n = n := by
  unfold toInt16Wrap
  omega

/-- Bounds for the encoded boundary input 1.0: a positive value strictly below
32767. -/
theorem createBlobSample_one_bounds :
    1 ≤ createBlobSample 1 ∧ createBlobSample 1 ≤ 32766 := by
  have hg := tanh_one_gt_three_quarters
  have hl := tanh_lt_one_real 1
  unfold createBlobSample jsScale16 jsTruncToInt
  have hnn : ¬ Real.tanh 1 < 0 := not_lt.mpr (by linarith)
  rw [if_neg hnn]
  have hr0 : ¬ Real.tanh 1 * 32767 < 0 := not_lt.mpr (by nlinarith)
  rw [if_neg hr0]
  have hf1 : 1 ≤ ⌊Real.tanh 1 * 32767⌋ := Int.le_floor.mpr (by push_cast; nlinarith)
  have hf2 : ⌊Real.tanh 1 * 32767⌋ < 32767 := Int.floor_lt.mpr (by push_cast; nlinarith)
  unfold toInt16Wrap
  omega

/-- Bounds for the encoded boundary input −1.0: a negative value strictly
above −32768. -/
theorem createBlobSample_negOne_bounds :
    -32767 ≤ createBlobSample (-1) ∧ createBlobSample (-1) ≤ -1 := by
  have hg := tanh_one_gt_three_quarters
  have hl := tanh_lt_one_real 1
  unfold createBlobSample jsScale16 jsTruncToInt
  rw [Real.tanh_neg]
  have h0 : -Real.tanh 1 < 0 := by linarith
  rw [if_pos h0]
  have hr2 : -Real.tanh 1 * 32768 < 0 := by nlinarith
  rw [if_pos hr2]
  have hc2 : ⌈-Real.tanh 1 * 32768⌉ ≤ -1 := Int.ceil_le.mpr (by push_cast; nlinarith)
  have hc1 : -32767 ≤ ⌈-Real.tanh 1 * 32768⌉ := by
    have h := Int.lt_ceil.mpr
      (show ((-32768 : ℤ) : ℝ) < -Real.tanh 1 * 32768 by push_cast; nlinarith)
    omega
  unfold toInt16Wrap
  omega

/-- C2, counterexample.  `createBlob` soft-clips with `tanh` before scaling,
so the boundary input 1.0 does not encode to 32767 (it encodes to
`⌊tanh(1)·32767⌋ ≈ 24955`) and −1.0 does not encode to −32768. -/
theorem c2_counterexample :
    createBlobSample 1 ≠ 32767 ∧ createBlobSample (-1) ≠ -32768 := by
  obtain ⟨h1, h2⟩ := createBlobSample_one_bounds
  obtain ⟨h3, h4⟩ := createBlobSample_negOne_bounds
  constructor <;> omega

/-- C2, amended.  The asymmetric factors (negative × 32768, non-negative
× 32767) are applied to the soft-clipped value `tanh(sample)`, so the boundary
inputs do not map to full scale: encoding 1.0 yields a positive value strictly
below 32767 (namely `⌊tanh(1)·32767⌋ ≈ 24955`) and encoding −1.0 yields a
negative value strictly above −32768. -/
theorem c2_boundary_not_full_scale :
    (0 < createBlobSample 1 ∧ createBlobSample 1 < 32767)
    ∧ (-32768 < createBlobSample (-1) ∧ createBlobSample (-1) < 0) := by
  constructor
  · obtain ⟨h1, h2⟩ := createBlobSample_one_bounds
    constructor <;> omega
  · obtain ⟨h1, h2⟩ := createBlobSample_negOne_bounds
    constructor <;> omega

/-- String append is associative (via the underlying character lists). -/
theorem str_append_assoc (a b c : String) : a ++ b ++ c = a ++ (b ++ c) := by
  apply String.ext
  simp [String.data_append]

/-- The empty string is a left unit for append. -/
theorem str_empty_append (s : String) : "" ++ s = s := by
  apply String.ext
  simp [String.data_append]

/-- The empty string is a right unit for append. -/
theorem str_append_empty (s : String) : s ++ "" = s := by
  apply String.ext
  simp [String.data_append]

/-- C7.  For every incoming transcript fragment tagged with a sender: when the
last segment exists, has the same sender and is partial, the fragment's text is
appended to that last segment (and "Hello" then " world" on a fresh list yield
the single segment "Hello world"); otherwise a new partial segment is created;
and all segments before the last are never modified. -/
theorem c7_segment_merge (now : ℕ) (sender : Sender) (text : String)
    (prev : List TranscriptSegment) :
    (∀ last, prev.getLast? = some last → last.sender = sender → last.isPartial = true →
        addFragment now sender text prev
          = prev.dropLast ++ [{ last with text := last.text ++ text }])
    ∧ (∀ last, prev.getLast? = some last → ¬(last.sender = sender ∧ last.isPartial = true) →
        addFragment now sender text prev
          = prev ++ [⟨toString now, sender, text, now, true⟩])
    ∧ (prev.getLast? = none →
        addFragment now sender text prev
          = prev ++ [⟨toString now, sender, text, now, true⟩])
    ∧ (addFragment now sender text prev).take (prev.length - 1)
        = prev.take (prev.length - 1)
    ∧ addFragment 1 Sender.user " world" (addFragment 0 Sender.user "Hello" [])
        = [⟨toString 0, Sender.user, "Hello world", 0, true⟩] := by
  refine ⟨?_, ?_, ?_, ?_, by decide⟩
  · intro last hlast hs hp
    unfold addFragment
    rw [hlast]
    simp only [if_pos (And.intro hs hp)]
  · intro last hlast hcond
    unfold addFragment
    rw [hlast]
    simp only [if_neg hcond]
  · intro hlast
    unfold addFragment
    rw [hlast]
  · cases hl : prev.getLast? with
    | none =>
        have hnil : prev = [] := List.getLast?_eq_none_iff.mp hl
        subst hnil
        simp [addFragment]
    | some last =>
        have hne : prev ≠ [] := by
          intro hnil
          subst hnil
          simp at hl
        have hlen : 1 ≤ prev.length := List.length_pos.mpr hne
        by_cases hcond : last.sender = sender ∧ last.isPartial = true
        · have he : addFragment now sender text prev
              = prev.dropLast ++ [{ last with text := last.text ++ text }] := by
            unfold addFragment
            rw [hl]
            simp only [if_pos hcond]
          rw [he, List.dropLast_eq_take]
          have hltake : (prev.take (prev.length - 1)).length = prev.length - 1 := by
            rw [List.length_take]
            omega
          exact List.take_left' hltake
        · have he : addFragment now sender text prev
              = prev ++ [⟨toString now, sender, text, now, true⟩] := by
            unfold addFragment
            rw [hl]
            simp only [if_neg hcond]
          rw [he, List.take_append_eq_append_take]
          have : prev.length - 1 - prev.length = 0 := by omega
          rw [this]
          simp

/-- C7, witness: a fragment merged into a matching partial last segment on a
concrete one-segment list. -/
theorem c7_segment_merge_witness :
    addFragment 5 Sender.user "x" [⟨"0", Sender.user, "a", 0, true⟩]
      = [⟨"0", Sender.user, "ax", 0, true⟩] := by
  have h := (c7_segment_merge 5 Sender.user "x" [⟨"0", Sender.user, "a", 0, true⟩]).1
    ⟨"0", Sender.user, "a", 0, true⟩ rfl rfl rfl
  rw [h]
  decide

/-- Folding the space-prefixing accumulation from any starting accumulator. -/
theorem joinWithSpace_foldl (frags : List String) (a : String) :
    frags.foldl (fun acc t => acc ++ (" " ++ t)) a = a ++ joinWithSpace frags := by
  induction frags generalizing a with
  | nil => simp [joinWithSpace, str_append_empty]
  | cons t ts ih =>
      show ts.foldl _ (a ++ (" " ++ t)) = a ++ joinWithSpace (t :: ts)
      rw [ih (a ++ (" " ++ t))]
      have hJ : joinWithSpace (t :: ts) = (" " ++ t) ++ joinWithSpace ts := by
        show ts.foldl _ ("" ++ (" " ++ t)) = (" " ++ t) ++ joinWithSpace ts
        rw [ih ("" ++ (" " ++ t)), str_empty_append]
      rw [hJ, str_append_assoc]

/-- Folding bare concatenation from any starting accumulator. -/
theorem joinBare_foldl (frags : List String) (a : String) :
    frags.foldl (fun acc t => acc ++ t) a = a ++ joinBare frags := by
  induction frags generalizing a with
  | nil => simp [joinBare, str_append_empty]
  | cons t ts ih =>
      show ts.foldl _ (a ++ t) = a ++ joinBare (t :: ts)
      rw [ih (a ++ t)]
      have hJ : joinBare (t :: ts) = t ++ joinBare ts := by
        show ts.foldl _ ("" ++ t) = t ++ joinBare ts
        rw [ih ("" ++ t), str_empty_append]
      rw [hJ, str_append_assoc]

/-- Queueing a fragment list only grows the pending accumulator, by one
space-prefixed copy of each fragment; the visible buffer is untouched. -/
theorem queueAll_spec (frags : List String) (s : BufferState) :
    (queueAll frags s).pending = s.pending ++ joinWithSpace frags
    ∧ (queueAll frags s).visible = s.visible := by
  induction frags generalizing s with
  | nil =>
      constructor
      · simp [queueAll, joinWithSpace, str_append_empty]
      · rfl
  | cons t ts ih =>
      have hstep : queueAll (t :: ts) s = queueAll ts (queueTranscriptUpdate t s) := rfl
      rw [hstep]
      obtain ⟨hp, hv⟩ := ih (queueTranscriptUpdate t s)
      constructor
      · rw [hp]
        show s.pending ++ " " ++ t ++ joinWithSpace ts = s.pending ++ joinWithSpace (t :: ts)
        have hJ : joinWithSpace (t :: ts) = (" " ++ t) ++ joinWithSpace ts := by
          show ts.foldl _ ("" ++ (" " ++ t)) = (" " ++ t) ++ joinWithSpace ts
          rw [joinWithSpace_foldl ts ("" ++ (" " ++ t)), str_empty_append]
        rw [hJ]
        simp only [str_append_assoc]
      · exact hv

/-- The space-prefixed accumulation is exactly one character per fragment
longer than bare concatenation. -/
theorem joinWithSpace_length (frags : List String) :
    (joinWithSpace frags).length = frags.length + (joinBare frags).length := by
  induction frags with
  | nil => rfl
  | cons t ts ih =>
      have hJ : joinWithSpace (t :: ts) = (" " ++ t) ++ joinWithSpace ts := by
        show ts.foldl _ ("" ++ (" " ++ t)) = (" " ++ t) ++ joinWithSpace ts
        rw [joinWithSpace_foldl ts ("" ++ (" " ++ t)), str_empty_append]
      have hB : joinBare (t :: ts) = t ++ joinBare ts := by
        show ts.foldl _ ("" ++ t) = t ++ joinBare ts
        rw [joinBare_foldl ts ("" ++ t), str_empty_append]
      rw [hJ, hB]
      have hsp : (" " : String).length = 1 := rfl
      simp only [String.length_append, List.length_cons, hsp]
      omega

/-- C9.  `queueTranscriptUpdate` prepends one space to every incoming fragment
before accumulating, so a debounce flush appends `" " + fragment` for each
fragment in arrival order to the visible buffer — never the bare concatenation
of the fragment texts. -/
theorem c9_transcript_space (s : BufferState) (frags : List String)
    (h : s.pending = "") :
    (flushTranscriptTimer (queueAll frags s)).visible = s.visible ++ joinWithSpace frags
    ∧ (frags ≠ [] → joinWithSpace frags ≠ joinBare frags) := by
  constructor
  · obtain ⟨hp, hv⟩ := queueAll_spec frags s
    rw [h, str_empty_append] at hp
    unfold flushTranscriptTimer
    by_cases hne : (queueAll frags s).pending ≠ ""
    · rw [if_pos hne]
      show (queueAll frags s).visible ++ (queueAll frags s).pending = _
      rw [hv, hp]
    · rw [if_neg hne]
      push_neg at hne
      show (queueAll frags s).visible = s.visible ++ joinWithSpace frags
      rw [hv, ← hp, hne, str_append_empty]
  · intro hfr hEq
    have hlen := congrArg String.length hEq
    rw [joinWithSpace_length] at hlen
    have hzero : frags.length = 0 := by omega
    exact hfr (List.length_eq_zero.mp hzero)

/-- C9, witness: two fragments flushed onto the visible buffer "v:", and the
space-prefixed accumulation differs from bare concatenation. -/
theorem c9_transcript_space_witness :
    (flushTranscriptTimer (queueAll ["Hello", "world"] ⟨"v:", "", false⟩)).visible
        = "v:" ++ joinWithSpace ["Hello", "world"]
    ∧ joinWithSpace ["Hello", "world"] ≠ joinBare ["Hello", "world"] := by
  have h := c9_transcript_space ⟨"v:", "", false⟩ ["Hello", "world"] rfl
  exact ⟨h.1, h.2 (List.cons_ne_nil _ _)⟩

/-- C8.  For every invocation of the per-block audio callback: when the active
flag is false or the processor or audio context has been torn down the block is
dropped with no side effect; the callback never lets an exception escape and
never touches the reconnect flag; and a send failure leaves the state unchanged
with nothing sent. -/
theorem c8_audio_callback (s : AudioCbState) (block : List ℝ)
    (inputRate threshold : ℝ) (liveAtSend sendOk : Bool) :
    ((s.isLive = false ∨ s.processorUp = false ∨ s.contextUp = false) →
        onAudioProcess s block inputRate threshold liveAtSend sendOk = ⟨s, none, false⟩)
    ∧ (onAudioProcess s block inputRate threshold liveAtSend sendOk).threw = false
    ∧ (onAudioProcess s block inputRate threshold liveAtSend sendOk).st.shouldReconnect
        = s.shouldReconnect
    ∧ (sendOk = false →
        (onAudioProcess s block inputRate threshold liveAtSend sendOk).sentBlock = none
        ∧ (onAudioProcess s block inputRate threshold liveAtSend sendOk).st = s) := by
  unfold onAudioProcess
  by_cases hg : s.isLive = false ∨ s.processorUp = false ∨ s.contextUp = false
  · rw [if_pos hg]
    exact ⟨fun _ => rfl, rfl, rfl, fun _ => ⟨rfl, rfl⟩⟩
  · rw [if_neg hg]
    by_cases hl : liveAtSend = false
    · rw [if_pos hl]
      exact ⟨fun hc => absurd hc hg, rfl, rfl, fun _ => ⟨rfl, rfl⟩⟩
    · rw [if_neg hl]
      cases hsend : sendOk with
      | true =>
          rw [if_pos rfl]
          exact ⟨fun hc => absurd hc hg, rfl, rfl, fun hfalse => by simp at hfalse⟩
      | false =>
          rw [if_neg (by simp)]
          exact ⟨fun hc => absurd hc hg, rfl, rfl, fun _ => ⟨rfl, rfl⟩⟩

/-- C8, witness: an inactive state drops the block with no side effect, and a
failing send on a live state leaves the state unchanged. -/
theorem c8_audio_callback_witness :
    onAudioProcess ⟨false, true, true, false, []⟩ [] 1 1 true true
        = ⟨⟨false, true, true, false, []⟩, none, false⟩
    ∧ (onAudioProcess ⟨true, true, true, false, []⟩ [] 1 1 true false).sentBlock = none
    ∧ (onAudioProcess ⟨true, true, true, false, []⟩ [] 1 1 true false).st
        = ⟨true, true, true, false, []⟩ := by
  refine ⟨(c8_audio_callback ⟨false, true, true, false, []⟩ [] 1 1 true true).1
      (Or.inl rfl), ?_, ?_⟩
  · exact ((c8_audio_callback ⟨true, true, true, false, []⟩ [] 1 1 true false).2.2.2 rfl).1
  · exact ((c8_audio_callback ⟨true, true, true, false, []⟩ [] 1 1 true false).2.2.2 rfl).2

end VibeNote
